import Mathlib

/-!
Shallow embedding of the polymarket-event-injestor pipeline.

Python floats are modelled as rationals (ℚ); the IEEE value float(inf)
produced for a percentage change over a zero baseline is modelled as the
top element of WithTop ℚ.  Wall-clock timestamps (datetime.now) are
modelled by an explicit parameter of type ℕ passed to the functions that
stamp them.  JSON values decoded from the upstream API are modelled by
the inductive type JVal below.
-/

namespace Polymarket

/-- A decoded JSON / Python value as handled by the data-source parser.
jnull models both JSON null and Python None (indistinguishable after
json.loads / dict.get). -/
inductive JVal where
  | jnull : JVal
  | jbool (b : Bool) : JVal
  | jnum (q : ℚ) : JVal
  | jstr (s : String) : JVal
  | jarr (xs : List JVal) : JVal
  | jobj (kvs : List (String × JVal)) : JVal

mutual

/-- Boolean equality on JSON values, modelling Python object equality
as used for dict keys. -/
def JVal.beq : JVal → JVal → Bool
  | .jnull, .jnull => true
  | .jbool a, .jbool b => a = b
  | .jnum a, .jnum b => a = b
  | .jstr a, .jstr b => a = b
  | .jarr xs, .jarr ys => JVal.beqList xs ys
  | .jobj xs, .jobj ys => JVal.beqKvs xs ys
  | _, _ => false

/-- Elementwise equality of JSON arrays. -/
def JVal.beqList : List JVal → List JVal → Bool
  | [], [] => true
  | x :: xs, y :: ys => JVal.beq x y && JVal.beqList xs ys
  | _, _ => false

/-- Elementwise equality of JSON object entries. -/
def JVal.beqKvs : List (String × JVal) → List (String × JVal) → Bool
  | [], [] => true
  | (k, v) :: xs, (l, w) :: ys => decide (k = l) && JVal.beq v w && JVal.beqKvs xs ys
  | _, _ => false

end

/-- Market snapshot (src/polymarket_kafka/data_source.py, MarketSnapshot).
fetched_at (a wall-clock stamp taken at parse time) is omitted from the
functional model.  market_id and question keep the raw JSON value the
parser stored (Python performs no coercion on dataclass fields). -/
structure MarketSnapshot where
  market_id : JVal
  question : JVal
  yes_price : ℚ
  no_price : ℚ
  volume : Option ℚ
  liquidity : Option ℚ
  active : Bool
  closed : Bool

/-- Subscription record (src/polymarket_kafka/models.py, PolymarketSubscription).
created_at / updated_at are modelled as abstract ℕ timestamps. -/
structure PolymarketSubscription where
  market_id : String
  slug : Option String := none
  ref_count : ℤ := 0
  created_at : Option ℕ := none
  updated_at : Option ℕ := none
  conviction_threshold : Option ℚ := none
  conviction_threshold_pct : Option ℚ := none
  deriving DecidableEq, Repr

/-- Model of is_active (models.py): ref_count > 0. -/
def PolymarketSubscription.isActive (s : PolymarketSubscription) : Bool :=
  0 < s.ref_count

/-- Per-market conviction tracking state (conviction.py, ConvictionState). -/
structure ConvictionState where
  last_yes_price : Option ℚ := none
  last_event_yes_price : Option ℚ := none
  last_event_at : Option ℕ := none
  deriving DecidableEq, Repr

/-- Result of a conviction change detection (conviction.py, ConvictionChange). -/
structure ConvictionChange where
  direction : String
  magnitude : ℚ
  magnitude_pct : WithTop ℚ
  previous_yes_price : Option ℚ
  detected_at : ℕ
  deriving DecidableEq, Repr

/-- Python truthiness of an optional float value: None and 0.0 are falsy.
Models the expression x or default in _resolve_thresholds. -/
def pyOrQ (x : Option ℚ) (d : ℚ) : ℚ :=
  match x with
  | some v => if v = 0 then d else v
  | none => d

/-- Model of _resolve_thresholds (conviction.py lines 31-45): per-subscription
value via the Python or-operator (falsy values, including 0.0, fall
back), defaults abs = 0.10 and pct = 0.20. -/
def resolveThresholds (subscription : PolymarketSubscription) : ℚ × ℚ :=
  let defaultAbs : ℚ := 1/10
  let defaultPct : ℚ := 1/5
  (pyOrQ subscription.conviction_threshold defaultAbs,
   pyOrQ subscription.conviction_threshold_pct defaultPct)

/-- The percentage-change expression of conviction.py lines 73-76:
float(inf) if the baseline is zero and the move is nonzero, 0.0 if both
are zero, otherwise change_abs / previous_price. -/
def changePctOf (previousPrice changeAbs : ℚ) : WithTop ℚ :=
  if previousPrice = 0 then
    (if 0 < changeAbs then ⊤ else ((0 : ℚ) : WithTop ℚ))
  else ((changeAbs / previousPrice : ℚ) : WithTop ℚ)

/-- detect_conviction_change (conviction.py lines 48-99).  The Python
function mutates state in place; here the updated state is returned.
now is the wall-clock value datetime.now(timezone.utc) would produce. -/
def detectConvictionChange (subscription : PolymarketSubscription)
    (snapshot : MarketSnapshot) (state : ConvictionState) (now : ℕ) :
    Option ConvictionChange × ConvictionState :=
  let currentPrice := snapshot.yes_price
  match state.last_yes_price with
  | none =>
      -- First observation for this market: initialize state, no event yet.
      (none, { state with last_yes_price := some currentPrice })
  | some previousPrice =>
      let absThreshold := (resolveThresholds subscription).1
      let pctThreshold := (resolveThresholds subscription).2
      let changeAbs := |currentPrice - previousPrice|
      let changePct := changePctOf previousPrice changeAbs
      if changeAbs < absThreshold ∧ changePct < ((pctThreshold : ℚ) : WithTop ℚ) then
        -- Insignificant move.
        (none, { state with last_yes_price := some currentPrice })
      else
        let direction := if previousPrice < currentPrice then "yes" else "no"
        (some { direction := direction
                magnitude := changeAbs
                magnitude_pct := changePct
                previous_yes_price := some previousPrice
                detected_at := now },
         { last_yes_price := some currentPrice
           last_event_yes_price := some currentPrice
           last_event_at := some now })

/-! ### Python value semantics used by the data-source parser -/

/-- Python truthiness of a value: None, False, 0, empty string, empty
list and empty dict are falsy. -/
def truthyV : JVal → Bool
  | .jnull => false
  | .jbool b => b
  | .jnum q => decide (q ≠ 0)
  | .jstr s => !s.isEmpty
  | .jarr xs => !xs.isEmpty
  | .jobj kvs => !kvs.isEmpty

/-- dict.get(k, default): the default applies only when the key is
absent; a stored JSON null is returned as jnull (Python None). -/
def jgetD (d : List (String × JVal)) (k : String) (dflt : JVal) : JVal :=
  match d.find? (fun kv => decide (kv.1 = k)) with
  | some kv => kv.2
  | none => dflt

/-- dict.get(k): absent keys yield Python None, modelled as jnull. -/
def jget (d : List (String × JVal)) (k : String) : JVal :=
  jgetD d k .jnull

/-- The Python or-operator on values: the first operand if truthy, the
second otherwise. -/
def pyOr (a b : JVal) : JVal :=
  if truthyV a then a else b

/-- Digits to a natural number. -/
def digitsToNat (ds : List Char) : ℕ :=
  ds.foldl (fun a c => 10 * a + (c.toNat - 48)) 0

/-- float(s) on a string: sign, digits with an optional fractional part,
optional exponent.  Returns none where CPython raises ValueError.
Surrounding whitespace, underscores in digit groups and the special
values inf and nan are not modelled. -/
def parseFloatStr (s : String) : Option ℚ :=
  let cs := s.data
  let signAndRest : Bool × List Char :=
    match cs with
    | '+' :: rest => (false, rest)
    | '-' :: rest => (true, rest)
    | _ => (false, cs)
  let neg := signAndRest.1
  let ipSplit := signAndRest.2.span Char.isDigit
  let ip := ipSplit.1
  let fpSplit : List Char × List Char :=
    match ipSplit.2 with
    | '.' :: rest => rest.span Char.isDigit
    | _ => ([], ipSplit.2)
  let fp := fpSplit.1
  let rest :=
    match ipSplit.2 with
    | '.' :: _ => fpSplit.2
    | _ => ipSplit.2
  if ip.isEmpty && fp.isEmpty then none
  else
    let mant : ℚ := (digitsToNat ip : ℚ) + (digitsToNat fp : ℚ) / ((10 : ℚ) ^ fp.length)
    let signedMant := if neg then -mant else mant
    match rest with
    | [] => some signedMant
    | c :: erest =>
      if c = 'e' ∨ c = 'E' then
        let esignAndRest : Bool × List Char :=
          match erest with
          | '+' :: r => (false, r)
          | '-' :: r => (true, r)
          | _ => (false, erest)
        let edSplit := esignAndRest.2.span Char.isDigit
        if edSplit.1.isEmpty ∨ !edSplit.2.isEmpty then none
        else
          let e : ℤ :=
            if esignAndRest.1 then -(digitsToNat edSplit.1 : ℤ)
            else (digitsToNat edSplit.1 : ℤ)
          some (signedMant * (10 : ℚ) ^ e)
      else none

/-- float(x) on a decoded JSON value: numbers pass through, booleans
become 0 or 1, strings are parsed; None, lists and dicts raise
TypeError, here none. -/
def pyFloat : JVal → Option ℚ
  | .jnum q => some q
  | .jbool b => some (if b then 1 else 0)
  | .jstr s => parseFloatStr s
  | _ => none

/-- ASCII lowercase of a character. -/
def lowerChar (c : Char) : Char :=
  if 'A' ≤ c ∧ c ≤ 'Z' then Char.ofNat (c.toNat + 32) else c

/-- str.lower() restricted to ASCII case mapping.  The results are only
compared against the ASCII labels yes/long/no/short, and no non-ASCII
character lowercases onto the letters of those labels. -/
def lowerStr (s : String) : String :=
  String.mk (s.data.map lowerChar)

/-- str(x).lower(), used only for membership in the outcome-label sets
yes/long/no/short.  The CPython repr of a non-string value (True, None,
numbers, lists, dicts) never equals one of those labels, so those cases
are collapsed to marker strings. -/
def pyStrLower : JVal → String
  | .jstr s => lowerStr s
  | .jbool true => "true"
  | .jbool false => "false"
  | .jnull => "none"
  | .jnum _ => "<number>"
  | .jarr _ => "<list>"
  | .jobj _ => "<dict>"

/-! ### json.loads, as a fuel-indexed JSON parser -/

/-- JSON whitespace. -/
def isJsonWs (c : Char) : Bool :=
  c = ' ' || c = '\t' || c = '\n' || c = '\r'

/-- Skip leading whitespace. -/
def skipWs : List Char → List Char
  | [] => []
  | c :: cs => if isJsonWs c then skipWs cs else c :: cs

/-- Parse the body of a JSON string, the opening quote consumed.
Unicode escapes are not modelled. -/
def parseJStrBody : List Char → List Char → Option (String × List Char)
  | acc, '"' :: cs => some (String.mk acc.reverse, cs)
  | acc, '\\' :: c :: cs =>
      if c = '"' then parseJStrBody ('"' :: acc) cs
      else if c = '\\' then parseJStrBody ('\\' :: acc) cs
      else if c = '/' then parseJStrBody ('/' :: acc) cs
      else if c = 'n' then parseJStrBody ('\n' :: acc) cs
      else if c = 't' then parseJStrBody ('\t' :: acc) cs
      else if c = 'r' then parseJStrBody ('\r' :: acc) cs
      else none
  | acc, c :: cs => parseJStrBody (c :: acc) cs
  | _, [] => none

/-- Parse a JSON number. -/
def parseJNum (cs : List Char) : Option (ℚ × List Char) :=
  let signAndRest : Bool × List Char :=
    match cs with
    | '-' :: rest => (true, rest)
    | _ => (false, cs)
  let ipSplit := signAndRest.2.span Char.isDigit
  if ipSplit.1.isEmpty then none
  else
    let fpSplit : List Char × List Char :=
      match ipSplit.2 with
      | '.' :: rest => rest.span Char.isDigit
      | _ => ([], ipSplit.2)
    let hasFrac : Bool := match ipSplit.2 with | '.' :: _ => true | _ => false
    if hasFrac && fpSplit.1.isEmpty then none
    else
      let rest := if hasFrac then fpSplit.2 else ipSplit.2
      let mant : ℚ :=
        (digitsToNat ipSplit.1 : ℚ) + (digitsToNat fpSplit.1 : ℚ) / ((10 : ℚ) ^ fpSplit.1.length)
      let signedMant := if signAndRest.1 then -mant else mant
      match rest with
      | 'e' :: erest =>
          let esignAndRest : Bool × List Char :=
            match erest with
            | '+' :: r => (false, r)
            | '-' :: r => (true, r)
            | _ => (false, erest)
          let edSplit := esignAndRest.2.span Char.isDigit
          if edSplit.1.isEmpty then none
          else
            let e : ℤ :=
              if esignAndRest.1 then -(digitsToNat edSplit.1 : ℤ)
              else (digitsToNat edSplit.1 : ℤ)
            some (signedMant * (10 : ℚ) ^ e, edSplit.2)
      | 'E' :: erest =>
          let esignAndRest : Bool × List Char :=
            match erest with
            | '+' :: r => (false, r)
            | '-' :: r => (true, r)
            | _ => (false, erest)
          let edSplit := esignAndRest.2.span Char.isDigit
          if edSplit.1.isEmpty then none
          else
            let e : ℤ :=
              if esignAndRest.1 then -(digitsToNat edSplit.1 : ℤ)
              else (digitsToNat edSplit.1 : ℤ)
            some (signedMant * (10 : ℚ) ^ e, edSplit.2)
      | _ => some (signedMant, rest)

mutual

/-- Parse one JSON value. -/
def parseJVal : ℕ → List Char → Option (JVal × List Char)
  | 0, _ => none
  | Nat.succ fuel, cs =>
    match skipWs cs with
    | [] => none
    | '"' :: rest =>
        match parseJStrBody [] rest with
        | some (s, r) => some (.jstr s, r)
        | none => none
    | 't' :: 'r' :: 'u' :: 'e' :: r => some (.jbool true, r)
    | 'f' :: 'a' :: 'l' :: 's' :: 'e' :: r => some (.jbool false, r)
    | 'n' :: 'u' :: 'l' :: 'l' :: r => some (.jnull, r)
    | '[' :: rest =>
        match parseJElems fuel rest with
        | some (vs, r) => some (.jarr vs, r)
        | none => none
    | '\x7b' :: rest =>
        match parseJMembers fuel rest with
        | some (kvs, r) => some (.jobj kvs, r)
        | none => none
    | cs' =>
        match parseJNum cs' with
        | some (q, r) => some (.jnum q, r)
        | none => none

/-- Parse the elements of a JSON array, the opening bracket consumed. -/
def parseJElems : ℕ → List Char → Option (List JVal × List Char)
  | 0, _ => none
  | Nat.succ fuel, cs =>
    match skipWs cs with
    | ']' :: r => some ([], r)
    | cs' =>
        match parseJVal fuel cs' with
        | some (v, r) =>
            match parseJElemsRest fuel r with
            | some (vs, r2) => some (v :: vs, r2)
            | none => none
        | none => none

/-- Parse the remaining elements of a JSON array. -/
def parseJElemsRest : ℕ → List Char → Option (List JVal × List Char)
  | 0, _ => none
  | Nat.succ fuel, cs =>
    match skipWs cs with
    | ']' :: r => some ([], r)
    | ',' :: r =>
        match parseJVal fuel r with
        | some (v, r2) =>
            match parseJElemsRest fuel r2 with
            | some (vs, r3) => some (v :: vs, r3)
            | none => none
        | none => none
    | _ => none

/-- Parse the members of a JSON object, the opening brace consumed. -/
def parseJMembers : ℕ → List Char → Option (List (String × JVal) × List Char)
  | 0, _ => none
  | Nat.succ fuel, cs =>
    match skipWs cs with
    | '\x7d' :: r => some ([], r)
    | cs' =>
        match parseJMember fuel cs' with
        | some (kv, r) =>
            match parseJMembersRest fuel r with
            | some (kvs, r2) => some (kv :: kvs, r2)
            | none => none
        | none => none

/-- Parse the remaining members of a JSON object. -/
def parseJMembersRest : ℕ → List Char → Option (List (String × JVal) × List Char)
  | 0, _ => none
  | Nat.succ fuel, cs =>
    match skipWs cs with
    | '\x7d' :: r => some ([], r)
    | ',' :: r =>
        match parseJMember fuel r with
        | some (kv, r2) =>
            match parseJMembersRest fuel r2 with
            | some (kvs, r3) => some (kv :: kvs, r3)
            | none => none
        | none => none
    | _ => none

/-- Parse a single key-value member of a JSON object. -/
def parseJMember : ℕ → List Char → Option ((String × JVal) × List Char)
  | 0, _ => none
  | Nat.succ fuel, cs =>
    match skipWs cs with
    | '"' :: rest =>
        match parseJStrBody [] rest with
        | some (k, r) =>
            match skipWs r with
            | ':' :: r2 =>
                match parseJVal fuel r2 with
                | some (v, r3) => some ((k, v), r3)
                | none => none
            | _ => none
        | none => none
    | _ => none

end

/-- json.loads: parse a complete JSON document; trailing garbage raises,
here none. -/
def jsonLoads (s : String) : Option JVal :=
  match parseJVal (s.length + 1) s.data with
  | some (v, rest) =>
      match skipWs rest with
      | [] => some v
      | _ => none
  | none => none

/-! ### _parse_gamma_market (data_source.py lines 100-205) -/

/-- Exceptions that can escape _parse_gamma_market: len() of an unsized
truthy value raises TypeError; indexing a str-keyed dict with an int
raises KeyError (an out-of-range list index would raise IndexError). -/
inductive PyErr where
  | typeError : PyErr
  | keyError : PyErr
  | indexError : PyErr
  deriving DecidableEq, Repr

/-- len(x) where defined: strings, lists and dicts; TypeError (none)
otherwise. -/
def pyLen : JVal → Option ℕ
  | .jstr s => some s.length
  | .jarr xs => some xs.length
  | .jobj kvs => some kvs.length
  | _ => none

/-- Iteration over a sized value: list elements, string characters (as
1-character strings), dict keys. -/
def pyElems : JVal → List JVal
  | .jstr s => s.data.map (fun c => .jstr (String.mk [c]))
  | .jarr xs => xs
  | .jobj kvs => kvs.map (fun kv => .jstr kv.1)
  | _ => []

/-- x[i] for an integer index: list element, string character; a
str-keyed dict raises KeyError; unsubscriptable values raise
TypeError. -/
def pyIndex : JVal → ℕ → Except PyErr JVal
  | .jarr xs, i =>
      match xs.get? i with
      | some v => .ok v
      | none => .error .indexError
  | .jstr s, i =>
      match s.data.get? i with
      | some c => .ok (.jstr (String.mk [c]))
      | none => .error .indexError
  | .jobj _, _ => .error .keyError
  | _, _ => .error .typeError

/-- json.loads(x) if isinstance(x, str) else x; none when loads
raises. -/
def decodeRaw : JVal → Option JVal
  | .jstr s => jsonLoads s
  | v => some v

/-- Lines 117-133 of data_source.py: read outcomes and outcomePrices, JSON
decode string values inside one try block (a failure of either decode
resets both to None), guarded by truthiness of the raw fields. -/
def decodedOutcomesPrices (d : List (String × JVal)) : Option JVal × Option JVal :=
  let outcomesRaw := jget d "outcomes"
  let pricesRaw := jget d "outcomePrices"
  if truthyV outcomesRaw && truthyV pricesRaw then
    match decodeRaw outcomesRaw, decodeRaw pricesRaw with
    | some o, some p => (some o, some p)
    | _, _ => (none, none)
  else (none, none)

/-- The label test outcome_lower in ("yes", "long"). -/
def isYesLabel (s : String) : Prop := s = "yes" ∨ s = "long"

/-- The label test outcome_lower in ("no", "short"). -/
def isNoLabel (s : String) : Prop := s = "no" ∨ s = "short"

instance : DecidablePred isYesLabel := fun s => by unfold isYesLabel; infer_instance

instance : DecidablePred isNoLabel := fun s => by unfold isNoLabel; infer_instance

/-- The loop of data_source.py lines 137-148 over enumerate(outcomes):
float(prices[i]) with ValueError/TypeError continuing the loop, a
KeyError from indexing propagating, then first-wins label mapping. -/
def packedLoop (prices : JVal) (lp : ℕ) :
    List JVal → ℕ → Option ℚ × Option ℚ → Except PyErr (Option ℚ × Option ℚ)
  | [], _, acc => .ok acc
  | outcome :: rest, i, (y, n) =>
    let pStep : Except PyErr (Option ℚ) :=
      if i < lp then
        match pyIndex prices i with
        | .error .typeError => .ok none
        | .error e => .error e
        | .ok pv => .ok (pyFloat pv)
      else .ok none
    match pStep with
    | .error e => .error e
    | .ok none => packedLoop prices lp rest (i + 1) (y, n)
    | .ok (some p) =>
        let ol := pyStrLower outcome
        let acc' :=
          if isYesLabel ol ∧ y = none then (some p, n)
          else if isNoLabel ol ∧ n = none then (y, some p)
          else (y, n)
        packedLoop prices lp rest (i + 1) acc'

/-- Lines 136-148 of data_source.py: the packed (Gamma) format.  The guard
evaluates left to right, so len() is only reached on truthy decoded
values and len(prices) only when len(outcomes) == 2. -/
def packedPhase (d : List (String × JVal)) : Except PyErr (Option ℚ × Option ℚ) :=
  match decodedOutcomesPrices d with
  | (some o, some p) =>
      if truthyV o && truthyV p then
        match pyLen o with
        | none => .error .typeError
        | some lo =>
          if lo = 2 then
            match pyLen p with
            | none => .error .typeError
            | some lp =>
              if lp = 2 then packedLoop p lp (pyElems o) 0 (none, none)
              else .ok (none, none)
          else .ok (none, none)
      else .ok (none, none)
  | _ => .ok (none, none)

/-- The loop of data_source.py lines 154-166 over the tokens array:
non-dict entries skipped, float failures continuing, first-wins label
mapping that fills only the still-missing prices. -/
def tokenLoop : List JVal → Option ℚ × Option ℚ → Option ℚ × Option ℚ
  | [], acc => acc
  | t :: rest, (y, n) =>
    match t with
    | .jobj kvs =>
        let ol := pyStrLower (jgetD kvs "outcome" (.jstr ""))
        match pyFloat (jgetD kvs "price" (.jnum 0)) with
        | none => tokenLoop rest (y, n)
        | some p =>
            let acc' :=
              if isYesLabel ol ∧ y = none then (some p, n)
              else if isNoLabel ol ∧ n = none then (y, some p)
              else (y, n)
            tokenLoop rest acc'
    | _ => tokenLoop rest (y, n)

/-- Lines 151-166 of data_source.py: the tokens (CLOB) fallback, entered
with the prices the packed phase already found. -/
def tokenPhase (d : List (String × JVal)) (y n : Option ℚ) : Option ℚ × Option ℚ :=
  match jgetD d "tokens" (.jarr []) with
  | .jarr ts => tokenLoop ts (y, n)
  | _ => (y, n)

/-- Lines 177-190 of data_source.py: volume = get(numKey) or get(plainKey);
if not None, float() with failures mapped to None. -/
def numFieldOf (d : List (String × JVal)) (numKey plainKey : String) : Option ℚ :=
  match pyOr (jget d numKey) (jget d plainKey) with
  | .jnull => none
  | v => pyFloat v

/-- The volume field of a parsed snapshot. -/
def volumeOf (d : List (String × JVal)) : Option ℚ :=
  numFieldOf d "volumeNum" "volume"

/-- The liquidity field of a parsed snapshot. -/
def liquidityOf (d : List (String × JVal)) : Option ℚ :=
  numFieldOf d "liquidityNum" "liquidity"

/-- bool(data.get("active", True)). -/
def activeOf (d : List (String × JVal)) : Bool :=
  truthyV (jgetD d "active" (.jbool true))

/-- bool(data.get("closed", False)). -/
def closedOf (d : List (String × JVal)) : Bool :=
  truthyV (jgetD d "closed" (.jbool false))

/-- Lines 109-112 of data_source.py: the identifier is the first truthy of
conditionId, condition_id, id; a falsy result skips the market. -/
def marketIdOf (d : List (String × JVal)) : Option JVal :=
  let m := pyOr (jget d "conditionId")
    (pyOr (jget d "condition_id") (pyOr (jget d "id") (.jstr "")))
  if truthyV m then some m else none

/-- Line 114 of data_source.py: question or title or the empty string. -/
def questionOf (d : List (String × JVal)) : JVal :=
  pyOr (jget d "question") (pyOr (jget d "title") (.jstr ""))

/-- The MarketSnapshot constructed at data_source.py lines 195-205. -/
def mkSnapshot (d : List (String × JVal)) (marketId : JVal) (y n : ℚ) : MarketSnapshot :=
  { market_id := marketId, question := questionOf d
    yes_price := y, no_price := n
    volume := volumeOf d, liquidity := liquidityOf d
    active := activeOf d, closed := closedOf d }

/-- Model of _parse_gamma_market: ok none models returning None (skip), error
models an uncaught exception escaping the function.  The tokens fallback
runs exactly when the packed phase left a price missing. -/
def parseGammaMarket (d : List (String × JVal)) : Except PyErr (Option MarketSnapshot) :=
  match marketIdOf d with
  | none => .ok none
  | some marketId =>
    match packedPhase d with
    | .error e => .error e
    | .ok (y0, n0) =>
      match (if y0 = none ∨ n0 = none then tokenPhase d y0 n0 else (y0, n0)) with
      | (some y, some n) => .ok (some (mkSnapshot d marketId y n))
      | _ => .ok none

/-- fetch_all_markets (data_source.py lines 278-297), applied to the
concatenated page items: non-dict items are skipped, per-record
exceptions are caught by the generic handler and the record dropped,
parsed snapshots are stored under snapshot.market_id with later records
overwriting earlier ones.  The resulting dict is modelled as a lookup
function. -/
def fetchStep (result : JVal → Option MarketSnapshot) (item : JVal) :
    JVal → Option MarketSnapshot :=
  match item with
  | .jobj kvs =>
      match parseGammaMarket kvs with
      | .ok (some snapshot) =>
          fun k => if JVal.beq k snapshot.market_id then some snapshot else result k
      | _ => result
  | _ => result

/-- See fetchStep: the whole bulk parse is a fold of it over the items. -/
def fetchAllMarkets (items : List JVal) : JVal → Option MarketSnapshot :=
  items.foldl fetchStep (fun _ => none)

/-- The mapping C9 describes: each identifier is bound to the snapshot
of the last raw record in input order that is a dict, parses, and
carries that identifier; identifiers with no such record are absent. -/
def lastStep (k : JVal) (acc : Option MarketSnapshot) (item : JVal) :
    Option MarketSnapshot :=
  match item with
  | .jobj kvs =>
      match parseGammaMarket kvs with
      | .ok (some snapshot) =>
          if JVal.beq k snapshot.market_id then some snapshot else acc
      | _ => acc
  | _ => acc

/-- See lastStep: the binding C9 describes for one identifier. -/
def lastParseableFor (items : List JVal) (k : JVal) : Option MarketSnapshot :=
  items.foldl (lastStep k) none

/-! ### Concrete inputs used by witnesses and counterexamples -/

/-- A subscription with no per-market thresholds. -/
def subDefault : PolymarketSubscription := { market_id := "m1", ref_count := 1 }

/-- A subscription whose thresholds are explicitly set to 0.0. -/
def subZero : PolymarketSubscription :=
  { market_id := "m1", ref_count := 1
    conviction_threshold := some 0, conviction_threshold_pct := some 0 }

/-- A subscription with nonzero per-market thresholds. -/
def subCustom : PolymarketSubscription :=
  { market_id := "m1", ref_count := 1
    conviction_threshold := some (3/100), conviction_threshold_pct := some (1/2) }

/-- A snapshot of market m1 at YES price q. -/
def snapAt (q : ℚ) : MarketSnapshot :=
  { market_id := JVal.jstr "m1", question := JVal.jstr "q?"
    yes_price := q, no_price := 1 - q
    volume := none, liquidity := none, active := true, closed := false }

/-- A raw record whose packed format yields only the YES price (the
second outcome label matches neither side) and whose tokens array
yields only the NO price. -/
def dMixed : List (String × JVal) :=
  [("id", .jstr "m5"), ("question", .jstr "q5"),
   ("outcomes", .jarr [.jstr "Yes", .jstr "Maybe"]),
   ("outcomePrices", .jarr [.jnum (1/2), .jnum (7/10)]),
   ("tokens", .jarr [.jobj [("outcome", .jstr "No"), ("price", .jnum (3/10))]])]

/-- A raw record whose packed format yields both prices. -/
def dPacked : List (String × JVal) :=
  [("id", .jstr "m7"), ("question", .jstr "q7"),
   ("outcomes", .jarr [.jstr "Yes", .jstr "No"]),
   ("outcomePrices", .jarr [.jnum (2/5), .jnum (3/5)])]

/-- A raw record with volumeNum and liquidityNum present but equal to 0
(falsy), volume present as a number, liquidity absent. -/
def dVolZero : List (String × JVal) :=
  [("id", .jstr "m6"),
   ("outcomes", .jarr [.jstr "Yes", .jstr "No"]),
   ("outcomePrices", .jarr [.jnum (1/2), .jnum (1/2)]),
   ("volumeNum", .jnum 0), ("volume", .jnum 7),
   ("liquidityNum", .jnum 0)]

/-! ### _request_with_retries (data_source.py lines 59-98) -/

/-- What one HTTP attempt yields as the code observes it: a response
status code, or a requests Timeout/ConnectionError. -/
inductive AttemptOutcome where
  | status (code : ℕ) : AttemptOutcome
  | transportError : AttemptOutcome
  deriving DecidableEq, Repr

/-- The exception the loop stores in last_exc or raises. -/
inductive ReqError where
  | apiError (code : ℕ) : ReqError
  | transport : ReqError
  deriving DecidableEq, Repr

/-- How _request_with_retries ends: the returned 2xx response with the
attempt that produced it, an exception raised at an attempt, or the
impossible assert-failure (last_exc None after the loop). -/
inductive ReqResult where
  | success (code : ℕ) (attempt : ℕ) : ReqResult
  | raised (e : ReqError) (attempt : ℕ) : ReqResult
  | assertFailure : ReqResult
  deriving DecidableEq, Repr

/-- Status codes 200 to 299. -/
def is2xx (c : ℕ) : Bool := decide (200 ≤ c ∧ c < 300)

/-- Status codes 400 to 499. -/
def is4xx (c : ℕ) : Bool := decide (400 ≤ c ∧ c < 500)

/-- Status codes 500 to 599. -/
def is5xx (c : ℕ) : Bool := decide (500 ≤ c ∧ c < 600)

/-- An attempt outcome the loop retries: a transport error or a 5xx
response. -/
def isTransient : AttemptOutcome → Bool
  | .status c => is5xx c
  | .transportError => true

/-- The exception value a transient outcome stores in last_exc. -/
def errOf : AttemptOutcome → ReqError
  | .status c => .apiError c
  | .transportError => .transport

/-- The backoff slept after a failed attempt: 0.5 * 2 ^ (attempt - 1)
seconds. -/
def backoff (attempt : ℕ) : ℚ := 1/2 * 2 ^ (attempt - 1)

/-- The first m backoffs, in sleeping order. -/
def backoffs (m : ℕ) : List ℚ := (List.range m).map (fun i => backoff (i + 1))

/-- The for-loop of _request_with_retries.  attempts gives the outcome
of the n-th attempt (1-based); remaining counts the loop iterations
left; sleeps accumulates backoffs most-recent-first and is reversed on
exit.  A 2xx returns; a 5xx stores last_exc and continues; any other
status raises immediately; a transport error stores last_exc and
continues; the sleep happens only while attempt < maxRetries; after the
loop the stored last_exc is raised (the assert rules out None). -/
def requestLoop (attempts : ℕ → AttemptOutcome) (maxRetries : ℕ) :
    ℕ → ℕ → Option ReqError → List ℚ → ReqResult × List ℚ
  | attempt, 0, lastExc, sleeps =>
      (match lastExc with
       | some e => .raised e (attempt - 1)
       | none => .assertFailure,
       sleeps.reverse)
  | attempt, remaining + 1, _lastExc, sleeps =>
      match attempts attempt with
      | .status c =>
          if is2xx c then (.success c attempt, sleeps.reverse)
          else if is5xx c then
            requestLoop attempts maxRetries (attempt + 1) remaining
              (some (.apiError c))
              (if attempt < maxRetries then backoff attempt :: sleeps else sleeps)
          else (.raised (.apiError c) attempt, sleeps.reverse)
      | .transportError =>
          requestLoop attempts maxRetries (attempt + 1) remaining
            (some .transport)
            (if attempt < maxRetries then backoff attempt :: sleeps else sleeps)

/-- The request loop with its default max_retries = 3. -/
def requestWithRetries (attempts : ℕ → AttemptOutcome) : ReqResult × List ℚ :=
  requestLoop attempts 3 1 3 none []

/-- A concrete attempt schedule: transport error, then 503, then 200. -/
def attemptsW : ℕ → AttemptOutcome :=
  fun k => if k = 1 then .transportError else if k = 2 then .status 503 else .status 200

/-! ### CouchbaseClient.upsert_event (strategy_injestor/couchbase_client.py) -/

/-- str(x) as the f-string keys market::... and event::... apply it.
String values pass through; the reprs of non-string values are
abstracted to markers (the claims only concern string identifiers). -/
def pyStr : JVal → String
  | .jstr s => s
  | .jbool true => "True"
  | .jbool false => "False"
  | .jnull => "None"
  | .jnum _ => "<number>"
  | .jarr _ => "<list>"
  | .jobj _ => "<dict>"

/-- upsert_event (couchbase_client.py lines 33-57): two upserts into the
default collection, market::{market_id} with discriminator
market_latest, then event::{event_id} with conviction_event.  A stored
document is the dict literal with the discriminator entry first and the
event entries after it; Python dict merge semantics (an explicit type
key in the event overriding the discriminator) correspond to reading
the last binding of a key.  The archive is modelled as a lookup
function; since the event document is written second, it wins if the
two keys ever coincided. -/
def upsertEvent (archive : String → Option (List (String × JVal)))
    (event : List (String × JVal)) : String → Option (List (String × JVal)) :=
  let marketKey := "market::" ++ pyStr (jgetD event "market_id" (.jstr "unknown"))
  let eventKey := "event::" ++ pyStr (jgetD event "event_id" (.jstr "unknown"))
  fun k =>
    if k = eventKey then some (("type", .jstr "conviction_event") :: event)
    else if k = marketKey then some (("type", .jstr "market_latest") :: event)
    else archive k


/-- A concrete consumed event record. -/
def eventW : List (String × JVal) :=
  [("event_id", .jstr "e1"), ("market_id", .jstr "mkt"),
   ("yes_price", .jnum (1/2)), ("conviction_direction", .jstr "yes")]

/-- A concrete orchestrator state map tracking market m1. -/
def statesW : String → Option ConvictionState :=
  fun k => if k = "m1" then some { last_yes_price := some (9/20) } else none


/-! ### Orchestrator state map (runner.py lines 43, 50-92) -/

/-- Model of _process_subscription as it acts on the _states map of the runner:
setdefault(market_id, ConvictionState()) creates the entry on first
sight, then detect_conviction_change updates it in place.  Event
building and Kafka publishing (and their exception handlers) never
touch the map. -/
def processSubscription (states : String → Option ConvictionState)
    (sub : PolymarketSubscription) (snapshot : MarketSnapshot) (now : ℕ) :
    String → Option ConvictionState :=
  let st := (states sub.market_id).getD {}
  let st1 := (detectConvictionChange sub snapshot st now).2
  fun k => if k = sub.market_id then some st1 else states k

/-- Any sequence of per-subscription evaluations, in order. -/
def processAll (states : String → Option ConvictionState)
    (steps : List (PolymarketSubscription × MarketSnapshot × ℕ)) :
    String → Option ConvictionState :=
  steps.foldl (fun st step => processSubscription st step.1 step.2.1 step.2.2) states

end Polymarket

namespace Polymarket

/-! ### Characterization lemmas for the conviction engine -/

/-- Unfolding of detect_conviction_change when a prior price exists. -/
theorem detect_some_prev (sub : PolymarketSubscription) (snap : MarketSnapshot)
    (st : ConvictionState) (now : ℕ) (prev : ℚ) (h : st.last_yes_price = some prev) :
    detectConvictionChange sub snap st now =
      if |snap.yes_price - prev| < (resolveThresholds sub).1 ∧
          changePctOf prev |snap.yes_price - prev| <
            (((resolveThresholds sub).2 : ℚ) : WithTop ℚ) then
        (none, { st with last_yes_price := some snap.yes_price })
      else
        (some { direction := if prev < snap.yes_price then "yes" else "no"
                magnitude := |snap.yes_price - prev|
                magnitude_pct := changePctOf prev |snap.yes_price - prev|
                previous_yes_price := some prev
                detected_at := now },
         { last_yes_price := some snap.yes_price
           last_event_yes_price := some snap.yes_price
           last_event_at := some now }) := by
  unfold detectConvictionChange
  rw [h]

/-- Unfolding of detect_conviction_change on a first observation. -/
theorem detect_none_prev (sub : PolymarketSubscription) (snap : MarketSnapshot)
    (st : ConvictionState) (now : ℕ) (h : st.last_yes_price = none) :
    detectConvictionChange sub snap st now =
      (none, { st with last_yes_price := some snap.yes_price }) := by
  unfold detectConvictionChange
  rw [h]

/-- With a prior price, a change is returned iff one of the two threshold
inequalities holds. -/
theorem detect_isSome_iff (sub : PolymarketSubscription) (snap : MarketSnapshot)
    (st : ConvictionState) (now : ℕ) (prev : ℚ) (h : st.last_yes_price = some prev) :
    ((detectConvictionChange sub snap st now).1.isSome = true) ↔
      ((resolveThresholds sub).1 ≤ |snap.yes_price - prev| ∨
       (((resolveThresholds sub).2 : ℚ) : WithTop ℚ) ≤
         changePctOf prev |snap.yes_price - prev|) := by
  rw [detect_some_prev sub snap st now prev h]
  by_cases hc : |snap.yes_price - prev| < (resolveThresholds sub).1 ∧
      changePctOf prev |snap.yes_price - prev| <
        (((resolveThresholds sub).2 : ℚ) : WithTop ℚ)
  · rw [if_pos hc]
    simp only [Option.isSome_none, Bool.false_eq_true, false_iff]
    push_neg
    exact hc
  · rw [if_neg hc]
    simp only [Option.isSome_some, true_iff]
    rcases not_and_or.mp hc with h1 | h2
    · exact Or.inl (not_lt.mp h1)
    · exact Or.inr (not_lt.mp h2)

/-- Evaluation helper: absolute difference at concrete rationals. -/
theorem abs_sub_eq (a b c : ℚ) (h : a - b = c) (h0 : 0 ≤ c) : |a - b| = c := by
  rw [h]
  exact abs_of_nonneg h0

/-- Evaluation helper: percentage change over a nonzero baseline. -/
theorem changePctOf_ne (prev changeAbs q : ℚ) (h : ¬ prev = 0)
    (hq : changeAbs / prev = q) :
    changePctOf prev changeAbs = ((q : ℚ) : WithTop ℚ) := by
  rw [changePctOf, if_neg h, hq]

/-! ### Claim theorems: conviction engine -/

/-- C1: with a prior last_yes_price recorded, a ConvictionChange is
returned iff the absolute move reaches abs_threshold or the percentage
move (infinite over a zero baseline with a nonzero move, zero over a
zero baseline with no move, the ratio otherwise) reaches pct_threshold;
a returned change carries magnitude and magnitude_pct equal to those two
quantities, and when no change is returned both inequalities fail
strictly. -/
theorem c1_conviction_fire_iff (sub : PolymarketSubscription) (snap : MarketSnapshot)
    (st : ConvictionState) (now : ℕ) (prev : ℚ) (h : st.last_yes_price = some prev) :
    (((detectConvictionChange sub snap st now).1.isSome = true) ↔
      ((resolveThresholds sub).1 ≤ |snap.yes_price - prev| ∨
       (((resolveThresholds sub).2 : ℚ) : WithTop ℚ) ≤
         changePctOf prev |snap.yes_price - prev|))
  ∧ (∀ c, (detectConvictionChange sub snap st now).1 = some c →
        c.magnitude = |snap.yes_price - prev| ∧
        c.magnitude_pct = changePctOf prev |snap.yes_price - prev|)
  ∧ ((detectConvictionChange sub snap st now).1 = none →
        |snap.yes_price - prev| < (resolveThresholds sub).1 ∧
        changePctOf prev |snap.yes_price - prev| <
          (((resolveThresholds sub).2 : ℚ) : WithTop ℚ)) := by
  refine ⟨detect_isSome_iff sub snap st now prev h, ?_, ?_⟩ <;>
    rw [detect_some_prev sub snap st now prev h] <;>
    by_cases hc : |snap.yes_price - prev| < (resolveThresholds sub).1 ∧
      changePctOf prev |snap.yes_price - prev| <
        (((resolveThresholds sub).2 : ℚ) : WithTop ℚ)
  · rw [if_pos hc]
    intro c hcon
    exact absurd hcon (by simp)
  · rw [if_neg hc]
    intro c hcon
    cases hcon
    exact ⟨rfl, rfl⟩
  · rw [if_pos hc]
    intro _
    exact hc
  · rw [if_neg hc]
    intro hcon
    exact absurd hcon (by simp)

/-- C1 witness: prev = 0.45, curr = 0.60 with default thresholds fires
(scenario 3 of the spec). -/
theorem c1_witness :
    (detectConvictionChange subDefault (snapAt (3/5))
      { last_yes_price := some (9/20) } 0).1.isSome = true := by
  have h := c1_conviction_fire_iff subDefault (snapAt (3/5))
    { last_yes_price := some (9/20) } 0 (9/20) rfl
  refine h.1.mpr (Or.inl ?_)
  show (1/10 : ℚ) ≤ |(3/5 : ℚ) - 9/20|
  rw [abs_sub_eq (3/5) (9/20) (3/20) (by norm_num) (by norm_num)]
  norm_num

/-- C2: the first evaluation for a market returns no change and records
the snapshot price; the second evaluation fires iff the threshold
predicate holds for the pair (first price, second price). -/
theorem c2_no_first_event (sub : PolymarketSubscription) (snap1 snap2 : MarketSnapshot)
    (st0 : ConvictionState) (now1 now2 : ℕ) (h : st0.last_yes_price = none) :
    (detectConvictionChange sub snap1 st0 now1).1 = none
  ∧ (detectConvictionChange sub snap1 st0 now1).2.last_yes_price = some snap1.yes_price
  ∧ (((detectConvictionChange sub snap2
        (detectConvictionChange sub snap1 st0 now1).2 now2).1.isSome = true) ↔
      ((resolveThresholds sub).1 ≤ |snap2.yes_price - snap1.yes_price| ∨
       (((resolveThresholds sub).2 : ℚ) : WithTop ℚ) ≤
         changePctOf snap1.yes_price |snap2.yes_price - snap1.yes_price|)) := by
  have h1 := detect_none_prev sub snap1 st0 now1 h
  refine ⟨by rw [h1], by rw [h1], ?_⟩
  rw [h1]
  exact detect_isSome_iff sub snap2 _ now2 snap1.yes_price rfl

/-- C2 witness: first snapshot at 0.45 produces no event and sets the
baseline; a second snapshot at 0.48 stays below both default thresholds
(scenario 2 of the spec). -/
theorem c2_witness :
    (detectConvictionChange subDefault (snapAt (9/20)) {} 0).1 = none
  ∧ (detectConvictionChange subDefault (snapAt (12/25))
      (detectConvictionChange subDefault (snapAt (9/20)) {} 0).2 1).1.isSome = false := by
  have h := c2_no_first_event subDefault (snapAt (9/20)) (snapAt (12/25)) {} 0 1 rfl
  refine ⟨h.1, ?_⟩
  have habs : |(snapAt (12/25)).yes_price - (snapAt (9/20)).yes_price| = 3/100 :=
    abs_sub_eq (12/25) (9/20) (3/100) (by norm_num) (by norm_num)
  have h3 := h.2.2
  by_cases hs : (detectConvictionChange subDefault (snapAt (12/25))
      (detectConvictionChange subDefault (snapAt (9/20)) {} 0).2 1).1.isSome = true
  · exfalso
    rcases h3.mp hs with hl | hr
    · rw [habs] at hl
      revert hl
      show ¬ ((1/10 : ℚ) ≤ 3/100)
      norm_num
    · rw [habs, show (snapAt (9/20)).yes_price = (9/20 : ℚ) from rfl,
        changePctOf_ne (9/20) (3/100) (1/15) (by norm_num) (by norm_num)] at hr
      revert hr
      show ¬ (((1/5 : ℚ) : WithTop ℚ) ≤ ((1/15 : ℚ) : WithTop ℚ))
      rw [WithTop.coe_le_coe]
      norm_num
  · simpa using hs

/-- C3: after every evaluation the state records the snapshot price as
last_yes_price; last_event_yes_price and last_event_at are left
untouched when no change is returned and set (to the snapshot price and
the detection time) exactly when a change is returned. -/
theorem c3_state_advance (sub : PolymarketSubscription) (snap : MarketSnapshot)
    (st : ConvictionState) (now : ℕ) :
    (detectConvictionChange sub snap st now).2.last_yes_price = some snap.yes_price
  ∧ ((detectConvictionChange sub snap st now).1 = none →
       (detectConvictionChange sub snap st now).2.last_event_yes_price =
         st.last_event_yes_price ∧
       (detectConvictionChange sub snap st now).2.last_event_at = st.last_event_at)
  ∧ (∀ c, (detectConvictionChange sub snap st now).1 = some c →
       (detectConvictionChange sub snap st now).2.last_event_yes_price =
         some snap.yes_price ∧
       (detectConvictionChange sub snap st now).2.last_event_at = some now) := by
  cases hst : st.last_yes_price with
  | none =>
      rw [detect_none_prev sub snap st now hst]
      exact ⟨rfl, fun _ => ⟨rfl, rfl⟩, fun c hc => absurd hc (by simp)⟩
  | some prev =>
      rw [detect_some_prev sub snap st now prev hst]
      by_cases hc : |snap.yes_price - prev| < (resolveThresholds sub).1 ∧
          changePctOf prev |snap.yes_price - prev| <
            (((resolveThresholds sub).2 : ℚ) : WithTop ℚ)
      · rw [if_pos hc]
        exact ⟨rfl, fun _ => ⟨rfl, rfl⟩, fun c hcon => absurd hcon (by simp)⟩
      · rw [if_neg hc]
        exact ⟨rfl, fun hcon => absurd hcon (by simp), fun c _ => ⟨rfl, rfl⟩⟩

/-- C3 witness: a fired evaluation (0.45 to 0.60) stamps both event
fields; a suppressed evaluation (0.45 to 0.48) leaves them unchanged. -/
theorem c3_witness :
    (detectConvictionChange subDefault (snapAt (3/5))
        { last_yes_price := some (9/20) } 7).2.last_event_at = some 7
  ∧ (detectConvictionChange subDefault (snapAt (12/25))
        { last_yes_price := some (9/20), last_event_at := some 3 } 9).2.last_event_at =
      some 3 := by
  have h1 := c3_state_advance subDefault (snapAt (3/5)) { last_yes_price := some (9/20) } 7
  have h2 := c3_state_advance subDefault (snapAt (12/25))
    { last_yes_price := some (9/20), last_event_at := some 3 } 9
  have hfire : (detectConvictionChange subDefault (snapAt (3/5))
      { last_yes_price := some (9/20) } 7).1.isSome = true := by
    refine (detect_isSome_iff subDefault (snapAt (3/5)) _ 7 (9/20) rfl).mpr (Or.inl ?_)
    show (1/10 : ℚ) ≤ |(3/5 : ℚ) - 9/20|
    rw [abs_sub_eq (3/5) (9/20) (3/20) (by norm_num) (by norm_num)]
    norm_num
  obtain ⟨c, hc⟩ := Option.isSome_iff_exists.mp hfire
  have hnone : (detectConvictionChange subDefault (snapAt (12/25))
      { last_yes_price := some (9/20), last_event_at := some 3 } 9).1 = none := by
    have hcond : |(snapAt (12/25)).yes_price - 9/20| < (resolveThresholds subDefault).1 ∧
        changePctOf (9/20) |(snapAt (12/25)).yes_price - 9/20| <
          (((resolveThresholds subDefault).2 : ℚ) : WithTop ℚ) := by
      have habs : |(snapAt (12/25)).yes_price - (9/20 : ℚ)| = 3/100 :=
        abs_sub_eq (12/25) (9/20) (3/100) (by norm_num) (by norm_num)
      rw [habs, changePctOf_ne (9/20) (3/100) (1/15) (by norm_num) (by norm_num)]
      constructor
      · show (3/100 : ℚ) < 1/10
        norm_num
      · show ((1/15 : ℚ) : WithTop ℚ) < ((1/5 : ℚ) : WithTop ℚ)
        rw [WithTop.coe_lt_coe]
        norm_num
    rw [detect_some_prev subDefault (snapAt (12/25)) _ 9 (9/20) rfl, if_pos hcond]
  exact ⟨(h1.2.2 c hc).2, (h2.2.1 hnone).2⟩

/-- C4 counterexample: thresholds explicitly set to 0.0 are not used;
the Python or-operator treats 0.0 as falsy and the defaults win. -/
theorem c4_counterexample :
    subZero.conviction_threshold = some 0 ∧
    subZero.conviction_threshold_pct = some 0 ∧
    resolveThresholds subZero = (1/10, 1/5) ∧
    (1/10 : ℚ) ≠ 0 ∧ (1/5 : ℚ) ≠ 0 :=
  ⟨rfl, rfl, rfl, by norm_num, by norm_num⟩

/-- C4 amended: the per-subscription threshold is used whenever it is
set to a nonzero value; when it is unset or set to 0.0 (falsy in
Python), the defaults abs = 0.10 and pct = 0.20 apply. -/
theorem c4_thresholds_amended (sub : PolymarketSubscription) :
    (∀ t, sub.conviction_threshold = some t → t ≠ 0 →
        (resolveThresholds sub).1 = t)
  ∧ ((sub.conviction_threshold = none ∨ sub.conviction_threshold = some 0) →
        (resolveThresholds sub).1 = 1/10)
  ∧ (∀ t, sub.conviction_threshold_pct = some t → t ≠ 0 →
        (resolveThresholds sub).2 = t)
  ∧ ((sub.conviction_threshold_pct = none ∨ sub.conviction_threshold_pct = some 0) →
        (resolveThresholds sub).2 = 1/5) := by
  refine ⟨?_, ?_, ?_, ?_⟩
  · intro t ht hne
    simp [resolveThresholds, pyOrQ, ht, hne]
  · rintro (h | h) <;> simp [resolveThresholds, pyOrQ, h]
  · intro t ht hne
    simp [resolveThresholds, pyOrQ, ht, hne]
  · rintro (h | h) <;> simp [resolveThresholds, pyOrQ, h]

/-- C4 witness: a nonzero per-subscription threshold is honored, while a
zero percentage threshold falls back to the 0.20 default. -/
theorem c4_witness :
    (resolveThresholds subCustom).1 = 3/100 ∧ (resolveThresholds subZero).2 = 1/5 :=
  ⟨(c4_thresholds_amended subCustom).1 (3/100) rfl (by norm_num),
   (c4_thresholds_amended subZero).2.2.2 (Or.inr rfl)⟩

/-! ### Helper lemmas for the parser -/

/-- The tokens loop never overwrites a price the packed phase found. -/
theorem tokenLoop_keeps (ts : List JVal) : ∀ (y n : Option ℚ),
    (∀ q, y = some q → (tokenLoop ts (y, n)).1 = some q) ∧
    (∀ q, n = some q → (tokenLoop ts (y, n)).2 = some q) := by
  induction ts with
  | nil => exact fun y n => ⟨fun q h => h ▸ rfl, fun q h => h ▸ rfl⟩
  | cons t rest ih =>
    intro y n
    cases t with
    | jobj kvs =>
      simp only [tokenLoop]
      split
      · exact ih y n
      · rename_i p hp
        by_cases h1 : isYesLabel (pyStrLower (jgetD kvs "outcome" (.jstr ""))) ∧ y = none
        · rw [if_pos h1]
          refine ⟨fun q hq => ?_, fun q hq => (ih (some p) n).2 q hq⟩
          rw [hq] at h1
          exact absurd h1.2 (by simp)
        · rw [if_neg h1]
          by_cases h2 : isNoLabel (pyStrLower (jgetD kvs "outcome" (.jstr ""))) ∧ n = none
          · rw [if_pos h2]
            refine ⟨fun q hq => (ih y (some p)).1 q hq, fun q hq => ?_⟩
            rw [hq] at h2
            exact absurd h2.2 (by simp)
          · rw [if_neg h2]
            exact ih y n
    | jnull => exact ih y n
    | jbool b => exact ih y n
    | jnum q => exact ih y n
    | jstr s => exact ih y n
    | jarr xs => exact ih y n

/-- The tokens phase never overwrites a price the packed phase found. -/
theorem tokenPhase_keeps (d : List (String × JVal)) (y n : Option ℚ) :
    (∀ q, y = some q → (tokenPhase d y n).1 = some q) ∧
    (∀ q, n = some q → (tokenPhase d y n).2 = some q) := by
  unfold tokenPhase
  split
  · rename_i ts _
    exact tokenLoop_keeps ts y n
  · exact ⟨fun q h => h ▸ rfl, fun q h => h ▸ rfl⟩

/-- Every snapshot the parser returns is the literal of lines 195-205,
keyed by the extracted identifier. -/
theorem parse_ok_shape (d : List (String × JVal)) (s : MarketSnapshot)
    (h : parseGammaMarket d = .ok (some s)) :
    marketIdOf d = some s.market_id ∧
    s = mkSnapshot d s.market_id s.yes_price s.no_price := by
  unfold parseGammaMarket at h
  split at h
  · exact absurd h (by simp)
  · rename_i mid hm
    split at h
    · exact absurd h (by simp)
    · rename_i e y0 n0 hp
      split at h
      · rename_i y n hyn
        simp only [Except.ok.injEq, Option.some.injEq] at h
        subst h
        exact ⟨hm, rfl⟩
      · exact absurd h (by simp)

/-- Characterization of the volume/liquidity extraction of lines
177-190: the or-operator takes the numeric-suffixed field when truthy,
else the plain field, then converts with float() or yields None. -/
theorem numFieldOf_char (d : List (String × JVal)) (nk pk : String) :
    (truthyV (jget d nk) = true → numFieldOf d nk pk = pyFloat (jget d nk))
  ∧ (truthyV (jget d nk) = false → jget d pk = .jnull → numFieldOf d nk pk = none)
  ∧ (truthyV (jget d nk) = false → jget d pk ≠ .jnull →
       numFieldOf d nk pk = pyFloat (jget d pk)) := by
  unfold numFieldOf pyOr
  refine ⟨fun ht => ?_, fun hf hn => ?_, fun hf hn => ?_⟩
  · rw [if_pos ht]
    cases hv : jget d nk with
    | jnull =>
        rw [hv] at ht
        exact absurd ht (by simp [truthyV])
    | jbool b => rfl
    | jnum q => rfl
    | jstr s => rfl
    | jarr xs => rfl
    | jobj kvs => rfl
  · rw [if_neg (by simp [hf]), hn]
  · rw [if_neg (by simp [hf])]
    cases hv : jget d pk with
    | jnull => exact absurd hv hn
    | jbool b => rfl
    | jnum q => rfl
    | jstr s => rfl
    | jarr xs => rfl
    | jobj kvs => rfl

/-- One step of the bulk-parse fold, observed at one key. -/
theorem fetchStep_at (f : JVal → Option MarketSnapshot) (item k : JVal) :
    (fetchStep f item) k = lastStep k (f k) item := by
  cases item with
  | jobj kvs =>
      simp only [fetchStep, lastStep]
      cases hp : parseGammaMarket kvs with
      | error e => rfl
      | ok o =>
          cases o with
          | none => rfl
          | some snapshot => rfl
  | jnull => rfl
  | jbool b => rfl
  | jnum q => rfl
  | jstr s => rfl
  | jarr xs => rfl

/-- The bulk-parse fold observed at one key equals the single-key
fold. -/
theorem fetchAll_fold (items : List JVal) :
    ∀ (f : JVal → Option MarketSnapshot) (k : JVal),
      (items.foldl fetchStep f) k = items.foldl (lastStep k) (f k) := by
  induction items with
  | nil => exact fun f k => rfl
  | cons item rest ih =>
    intro f k
    simp only [List.foldl_cons]
    rw [ih (fetchStep f item) k, fetchStep_at f item k]

/-! ### Claim theorems: data-source parser -/

/-- C5 counterexample: on dMixed the packed format yields only the YES
price and the tokens format alone yields only the NO price, so no
single format yields both; yet the parser produces a snapshot whose YES
price comes from the packed format and whose NO price comes from the
tokens format. -/
theorem c5_counterexample :
    packedPhase dMixed = .ok (some (1/2), none)
  ∧ tokenPhase dMixed none none = (none, some (3/10))
  ∧ parseGammaMarket dMixed =
      .ok (some (mkSnapshot dMixed (.jstr "m5") (1/2) (3/10))) :=
  ⟨rfl, rfl, rfl⟩

/-- C5 amended: the parser attempts the packed format first; when it
yields both prices the tokens array is not consulted; otherwise the
tokens loop fills exactly the still-missing prices, keeping those
already found (so the YES and NO price of a snapshot may come from two
different formats); the market is skipped iff a price is still missing
after both phases. -/
theorem c5_parse_precedence (d : List (String × JVal)) (mid : JVal)
    (y0 n0 : Option ℚ) (hmid : marketIdOf d = some mid)
    (hp : packedPhase d = .ok (y0, n0)) :
    (∀ y n, y0 = some y → n0 = some n →
        parseGammaMarket d = .ok (some (mkSnapshot d mid y n)))
  ∧ ((y0 = none ∨ n0 = none) →
        ((∀ y n, tokenPhase d y0 n0 = (some y, some n) →
            parseGammaMarket d = .ok (some (mkSnapshot d mid y n)))
      ∧ ((tokenPhase d y0 n0).1 = none ∨ (tokenPhase d y0 n0).2 = none →
            parseGammaMarket d = .ok none)
      ∧ (∀ y, y0 = some y → (tokenPhase d y0 n0).1 = some y)
      ∧ (∀ n, n0 = some n → (tokenPhase d y0 n0).2 = some n))) := by
  have hunf : parseGammaMarket d =
      match (if y0 = none ∨ n0 = none then tokenPhase d y0 n0 else (y0, n0)) with
      | (some y, some n) => .ok (some (mkSnapshot d mid y n))
      | _ => .ok none := by
    unfold parseGammaMarket
    rw [hmid, hp]
  constructor
  · intro y n hy hn
    subst hy
    subst hn
    rw [hunf, if_neg (by simp)]
  · intro h0
    refine ⟨?_, ?_, ?_, ?_⟩
    · intro y n ht
      rw [hunf, if_pos h0, ht]
    · intro hnone
      rw [hunf, if_pos h0]
      cases htp : tokenPhase d y0 n0 with
      | mk y1 n1 =>
          rw [htp] at hnone
          rcases hnone with hcase | hcase
          · have h1 : y1 = none := hcase
            subst h1
            cases n1 <;> rfl
          · have h1 : n1 = none := hcase
            subst h1
            cases y1 <;> rfl
    · intro y hy
      exact (tokenPhase_keeps d y0 n0).1 y hy
    · intro n hn
      exact (tokenPhase_keeps d y0 n0).2 n hn

/-- C5 witness: a record whose packed format yields both prices parses
to the packed snapshot without consulting tokens. -/
theorem c5_witness :
    parseGammaMarket dPacked = .ok (some (mkSnapshot dPacked (.jstr "m7") (2/5) (3/5))) :=
  (c5_parse_precedence dPacked (.jstr "m7") (some (2/5)) (some (3/5)) rfl rfl).1
    (2/5) (3/5) rfl rfl

/-- C6 counterexample: volumeNum is present but equal to 0 (falsy), so
the plain volume field wins; liquidityNum present and 0 with liquidity
absent yields null instead of 0.0. -/
theorem c6_counterexample :
    jget dVolZero "volumeNum" = .jnum 0
  ∧ pyFloat (jget dVolZero "volumeNum") = some 0
  ∧ jget dVolZero "liquidityNum" = .jnum 0
  ∧ parseGammaMarket dVolZero =
      .ok (some (mkSnapshot dVolZero (.jstr "m6") (1/2) (1/2)))
  ∧ (mkSnapshot dVolZero (.jstr "m6") (1/2) (1/2)).volume = some 7
  ∧ (mkSnapshot dVolZero (.jstr "m6") (1/2) (1/2)).liquidity = none
  ∧ some (7 : ℚ) ≠ some (0 : ℚ) :=
  ⟨rfl, rfl, rfl, rfl, rfl, rfl,
   fun h => absurd (Option.some.inj h) (by norm_num)⟩

/-- C6 amended: the volume of a parsed snapshot is float(volumeNum) whenever
volumeNum is present and truthy (nonzero); when volumeNum is absent or
falsy the plain volume field is used (null when it is None, float of it
otherwise); likewise liquidity with liquidityNum/liquidity. -/
theorem c6_volume_liquidity (d : List (String × JVal)) (s : MarketSnapshot)
    (h : parseGammaMarket d = .ok (some s)) :
    s.volume = volumeOf d
  ∧ s.liquidity = liquidityOf d
  ∧ (truthyV (jget d "volumeNum") = true → s.volume = pyFloat (jget d "volumeNum"))
  ∧ (truthyV (jget d "volumeNum") = false → jget d "volume" = .jnull →
        s.volume = none)
  ∧ (truthyV (jget d "volumeNum") = false → jget d "volume" ≠ .jnull →
        s.volume = pyFloat (jget d "volume"))
  ∧ (truthyV (jget d "liquidityNum") = true →
        s.liquidity = pyFloat (jget d "liquidityNum"))
  ∧ (truthyV (jget d "liquidityNum") = false → jget d "liquidity" = .jnull →
        s.liquidity = none)
  ∧ (truthyV (jget d "liquidityNum") = false → jget d "liquidity" ≠ .jnull →
        s.liquidity = pyFloat (jget d "liquidity")) := by
  have hv : s.volume = volumeOf d := by
    rw [(parse_ok_shape d s h).2]
    rfl
  have hl : s.liquidity = liquidityOf d := by
    rw [(parse_ok_shape d s h).2]
    rfl
  have hcv := numFieldOf_char d "volumeNum" "volume"
  have hcl := numFieldOf_char d "liquidityNum" "liquidity"
  refine ⟨hv, hl, ?_, ?_, ?_, ?_, ?_, ?_⟩
  · intro ht
    rw [hv]
    exact hcv.1 ht
  · intro hf hn
    rw [hv]
    exact hcv.2.1 hf hn
  · intro hf hn
    rw [hv]
    exact hcv.2.2 hf hn
  · intro ht
    rw [hl]
    exact hcl.1 ht
  · intro hf hn
    rw [hl]
    exact hcl.2.1 hf hn
  · intro hf hn
    rw [hl]
    exact hcl.2.2 hf hn

/-- C6 witness: on dVolZero the falsy volumeNum is bypassed and the
volume of the snapshot is float of the plain volume field. -/
theorem c6_witness :
    (mkSnapshot dVolZero (.jstr "m6") (1/2) (1/2)).volume =
      pyFloat (jget dVolZero "volume") :=
  (c6_volume_liquidity dVolZero (mkSnapshot dVolZero (.jstr "m6") (1/2) (1/2))
    rfl).2.2.2.2.1 rfl
    (fun hh => JVal.noConfusion (show JVal.jnum 7 = JVal.jnull from hh))

/-- C9: fetch_all_markets binds each identifier to the snapshot of the
last raw record in input order that is a dict, parses to a snapshot,
and carries that identifier; identifiers with no such record (including
all non-dict items and unparseable records) are absent. -/
theorem c9_fetch_all_last_wins (items : List JVal) (k : JVal) :
    fetchAllMarkets items k = lastParseableFor items k :=
  fetchAll_fold items (fun _ => none) k

theorem transient_cases (o : AttemptOutcome) (h : isTransient o = true) :
    (∃ c, o = .status c ∧ is5xx c = true) ∨ o = .transportError := by
  cases o with
  | status c => exact Or.inl ⟨c, rfl, h⟩
  | transportError => exact Or.inr rfl

theorem not2xx_of_5xx (c : ℕ) (h5 : is5xx c = true) : is2xx c = false := by
  simp only [is5xx, decide_eq_true_eq] at h5
  simp only [is2xx, decide_eq_false_iff_not]
  omega

theorem requestLoop_transient_step (attempts : ℕ → AttemptOutcome)
    (attempt r : ℕ) (le : Option ReqError) (sl : List ℚ)
    (h : isTransient (attempts attempt) = true) (hlt : attempt < 3) :
    requestLoop attempts 3 attempt (r + 1) le sl =
      requestLoop attempts 3 (attempt + 1) r (some (errOf (attempts attempt)))
        (backoff attempt :: sl) := by
  rcases transient_cases _ h with ⟨c, ha, h5⟩ | ha
  · simp only [requestLoop, ha, errOf]
    rw [if_neg (by simp [not2xx_of_5xx c h5]), if_pos h5, if_pos hlt]
  · simp only [requestLoop, ha, errOf]
    rw [if_pos hlt]

theorem requestLoop_last_raise (attempts : ℕ → AttemptOutcome)
    (e : ReqError) (sl : List ℚ)
    (h : isTransient (attempts 3) = true) :
    requestLoop attempts 3 3 1 (some e) sl =
      (.raised (errOf (attempts 3)) 3, sl.reverse) := by
  rcases transient_cases _ h with ⟨c, ha, h5⟩ | ha
  · simp only [requestLoop, ha, errOf]
    rw [if_neg (by simp [not2xx_of_5xx c h5]), if_pos h5, if_neg (by omega)]
  · simp only [requestLoop, ha, errOf]
    rw [if_neg (by omega)]


theorem not2xx_of_4xx (c : ℕ) (h4 : is4xx c = true) : is2xx c = false := by
  simp only [is4xx, decide_eq_true_eq] at h4
  simp only [is2xx, decide_eq_false_iff_not]
  omega

theorem not5xx_of_4xx (c : ℕ) (h4 : is4xx c = true) : is5xx c = false := by
  simp only [is4xx, decide_eq_true_eq] at h4
  simp only [is5xx, decide_eq_false_iff_not]
  omega

theorem requestLoop_2xx (attempts : ℕ → AttemptOutcome)
    (attempt r : ℕ) (le : Option ReqError) (sl : List ℚ) (c : ℕ)
    (ha : attempts attempt = .status c) (h2 : is2xx c = true) :
    requestLoop attempts 3 attempt (r + 1) le sl = (.success c attempt, sl.reverse) := by
  simp only [requestLoop, ha]
  rw [if_pos h2]

theorem requestLoop_terminal (attempts : ℕ → AttemptOutcome)
    (attempt r : ℕ) (le : Option ReqError) (sl : List ℚ) (c : ℕ)
    (ha : attempts attempt = .status c) (h2 : is2xx c = false) (h5 : is5xx c = false) :
    requestLoop attempts 3 attempt (r + 1) le sl =
      (.raised (.apiError c) attempt, sl.reverse) := by
  simp only [requestLoop, ha]
  rw [if_neg (by simp [h2]), if_neg (by simp [h5])]

theorem c7_request_retries (attempts : ℕ → AttemptOutcome) :
    (∀ n c, 1 ≤ n → n ≤ 3 →
        (∀ k, 1 ≤ k → k < n → isTransient (attempts k) = true) →
        attempts n = .status c →
        ((is2xx c = true →
            requestWithRetries attempts = (.success c n, backoffs (n - 1)))
       ∧ (is4xx c = true →
            requestWithRetries attempts = (.raised (.apiError c) n, backoffs (n - 1)))))
  ∧ ((∀ k, 1 ≤ k → k ≤ 3 → isTransient (attempts k) = true) →
        requestWithRetries attempts = (.raised (errOf (attempts 3)) 3, backoffs 2))
  ∧ backoffs 1 = [1/2] ∧ backoffs 2 = [1/2, 1] := by
  refine ⟨?_, ?_, ?_, ?_⟩
  · intro n c h1 h3 htrans ha
    interval_cases n
    · constructor
      · intro h2xx
        show requestLoop attempts 3 1 (2 + 1) none [] = (.success c 1, backoffs 0)
        rw [requestLoop_2xx attempts 1 2 none [] c ha h2xx]
        rfl
      · intro h4xx
        show requestLoop attempts 3 1 (2 + 1) none [] = (.raised (.apiError c) 1, backoffs 0)
        rw [requestLoop_terminal attempts 1 2 none [] c ha
          (not2xx_of_4xx c h4xx) (not5xx_of_4xx c h4xx)]
        rfl
    · have hs1 := requestLoop_transient_step attempts 1 2 none []
        (htrans 1 (by omega) (by omega)) (by omega)
      constructor
      · intro h2xx
        show requestLoop attempts 3 1 (2 + 1) none [] = (.success c 2, backoffs 1)
        rw [hs1]
        show requestLoop attempts 3 2 (1 + 1) (some (errOf (attempts 1))) [backoff 1] =
          (.success c 2, backoffs 1)
        rw [requestLoop_2xx attempts 2 1 (some (errOf (attempts 1))) [backoff 1] c ha h2xx]
        rfl
      · intro h4xx
        show requestLoop attempts 3 1 (2 + 1) none [] = (.raised (.apiError c) 2, backoffs 1)
        rw [hs1]
        show requestLoop attempts 3 2 (1 + 1) (some (errOf (attempts 1))) [backoff 1] =
          (.raised (.apiError c) 2, backoffs 1)
        rw [requestLoop_terminal attempts 2 1 (some (errOf (attempts 1))) [backoff 1] c ha
          (not2xx_of_4xx c h4xx) (not5xx_of_4xx c h4xx)]
        rfl
    · have hs1 := requestLoop_transient_step attempts 1 2 none []
        (htrans 1 (by omega) (by omega)) (by omega)
      have hs2 := requestLoop_transient_step attempts 2 1 (some (errOf (attempts 1)))
        [backoff 1] (htrans 2 (by omega) (by omega)) (by omega)
      constructor
      · intro h2xx
        show requestLoop attempts 3 1 (2 + 1) none [] = (.success c 3, backoffs 2)
        rw [hs1]
        show requestLoop attempts 3 2 (1 + 1) (some (errOf (attempts 1))) [backoff 1] =
          (.success c 3, backoffs 2)
        rw [hs2]
        show requestLoop attempts 3 3 (0 + 1) (some (errOf (attempts 2)))
          [backoff 2, backoff 1] = (.success c 3, backoffs 2)
        rw [requestLoop_2xx attempts 3 0 (some (errOf (attempts 2)))
          [backoff 2, backoff 1] c ha h2xx]
        rfl
      · intro h4xx
        show requestLoop attempts 3 1 (2 + 1) none [] = (.raised (.apiError c) 3, backoffs 2)
        rw [hs1]
        show requestLoop attempts 3 2 (1 + 1) (some (errOf (attempts 1))) [backoff 1] =
          (.raised (.apiError c) 3, backoffs 2)
        rw [hs2]
        show requestLoop attempts 3 3 (0 + 1) (some (errOf (attempts 2)))
          [backoff 2, backoff 1] = (.raised (.apiError c) 3, backoffs 2)
        rw [requestLoop_terminal attempts 3 0 (some (errOf (attempts 2)))
          [backoff 2, backoff 1] c ha (not2xx_of_4xx c h4xx) (not5xx_of_4xx c h4xx)]
        rfl
  · intro htrans
    show requestLoop attempts 3 1 (2 + 1) none [] = (.raised (errOf (attempts 3)) 3, backoffs 2)
    rw [requestLoop_transient_step attempts 1 2 none []
      (htrans 1 (by omega) (by omega)) (by omega)]
    show requestLoop attempts 3 2 (1 + 1) (some (errOf (attempts 1))) [backoff 1] =
      (.raised (errOf (attempts 3)) 3, backoffs 2)
    rw [requestLoop_transient_step attempts 2 1 (some (errOf (attempts 1)))
      [backoff 1] (htrans 2 (by omega) (by omega)) (by omega)]
    show requestLoop attempts 3 3 (0 + 1) (some (errOf (attempts 2)))
      [backoff 2, backoff 1] = (.raised (errOf (attempts 3)) 3, backoffs 2)
    rw [requestLoop_last_raise attempts (errOf (attempts 2)) [backoff 2, backoff 1]
      (htrans 3 (by omega) (by omega))]
    rfl
  · norm_num [backoffs, backoff, List.range_succ]
  · norm_num [backoffs, backoff, List.range_succ]


theorem c7_witness :
    requestWithRetries attemptsW = (.success 200 3, backoffs 2) ∧ backoffs 2 = [1/2, 1] := by
  have h := c7_request_retries attemptsW
  refine ⟨(h.1 3 200 (by norm_num) (by norm_num) ?_ rfl).1 rfl, h.2.2.2⟩
  intro k h1 h2
  interval_cases k <;> rfl


/-! ### Claim theorems: projector and orchestrator state -/

/-- The two document key namespaces never collide. -/
theorem marketKey_ne_eventKey (a b : String) :
    ("market::" ++ a) ≠ ("event::" ++ b) := by
  intro h
  cases a with
  | mk la =>
    cases b with
    | mk lb =>
      have hd := congrArg (fun s => s.data.take 6) h
      have hd2 : (['m','a','r','k','e','t'] : List Char) = ['e','v','e','n','t',':'] := hd
      exact absurd hd2 (by decide)

/-- C8: the projector writes the event body preceded by the
market_latest discriminator under market::{market_id} and the event
body preceded by the conviction_event discriminator under
event::{event_id}, touches no other key, and is idempotent: processing
the same record twice leaves the archive identical. -/
theorem c8_projector_upsert (archive : String → Option (List (String × JVal)))
    (event : List (String × JVal)) (mid eid : String)
    (hm : jgetD event "market_id" (.jstr "unknown") = .jstr mid)
    (he : jgetD event "event_id" (.jstr "unknown") = .jstr eid) :
    upsertEvent archive event ("market::" ++ mid) =
      some (("type", .jstr "market_latest") :: event)
  ∧ upsertEvent archive event ("event::" ++ eid) =
      some (("type", .jstr "conviction_event") :: event)
  ∧ (∀ k, k ≠ "market::" ++ mid → k ≠ "event::" ++ eid →
      upsertEvent archive event k = archive k)
  ∧ upsertEvent (upsertEvent archive event) event = upsertEvent archive event := by
  refine ⟨?_, ?_, ?_, ?_⟩
  · simp only [upsertEvent, hm, he, pyStr]
    rw [if_neg (marketKey_ne_eventKey mid eid)]
    simp
  · simp only [upsertEvent, hm, he, pyStr]
    simp
  · intro k hk1 hk2
    simp only [upsertEvent, hm, he, pyStr]
    rw [if_neg hk2, if_neg hk1]
  · funext k
    simp only [upsertEvent, hm, he, pyStr]
    by_cases h1 : k = "event::" ++ eid
    · simp [h1]
    · by_cases h2 : k = "market::" ++ mid
      · simp [h1, h2]
      · simp [h1, h2]

/-- C8 witness: a concrete event is projected into its two documents
and re-processing it is a no-op. -/
theorem c8_witness :
    upsertEvent (fun _ => none) eventW ("market::" ++ "mkt") =
      some (("type", .jstr "market_latest") :: eventW)
  ∧ upsertEvent (upsertEvent (fun _ => none) eventW) eventW =
      upsertEvent (fun _ => none) eventW :=
  ⟨(c8_projector_upsert (fun _ => none) eventW "mkt" "e1" rfl rfl).1,
   (c8_projector_upsert (fun _ => none) eventW "mkt" "e1" rfl rfl).2.2.2⟩

/-- The engine always leaves a recorded last_yes_price behind. -/
theorem detect_last_isSome (sub : PolymarketSubscription) (snap : MarketSnapshot)
    (st : ConvictionState) (now : ℕ) :
    ((detectConvictionChange sub snap st now).2.last_yes_price).isSome = true := by
  cases hst : st.last_yes_price with
  | none =>
      rw [detect_none_prev sub snap st now hst]
      rfl
  | some prev =>
      rw [detect_some_prev sub snap st now prev hst]
      by_cases hc : |snap.yes_price - prev| < (resolveThresholds sub).1 ∧
          changePctOf prev |snap.yes_price - prev| <
            (((resolveThresholds sub).2 : ℚ) : WithTop ℚ)
      · rw [if_pos hc]
        rfl
      · rw [if_neg hc]
        rfl

/-- One evaluation never removes a tracked market. -/
theorem processSub_isSome (states : String → Option ConvictionState)
    (sub : PolymarketSubscription) (snap : MarketSnapshot) (now : ℕ) (mid : String)
    (h : (states mid).isSome = true) :
    ((processSubscription states sub snap now) mid).isSome = true := by
  simp only [processSubscription]
  by_cases hk : mid = sub.market_id
  · rw [if_pos hk]
    rfl
  · rw [if_neg hk]
    exact h

/-- One evaluation never resets a recorded last_yes_price to None. -/
theorem processSub_tracked (states : String → Option ConvictionState)
    (sub : PolymarketSubscription) (snap : MarketSnapshot) (now : ℕ) (mid : String)
    (st1 : ConvictionState) (h : states mid = some st1)
    (hsome : st1.last_yes_price.isSome = true) :
    ∃ st2, processSubscription states sub snap now mid = some st2 ∧
      st2.last_yes_price.isSome = true := by
  simp only [processSubscription]
  by_cases hk : mid = sub.market_id
  · rw [if_pos hk]
    exact ⟨_, rfl, detect_last_isSome sub snap _ now⟩
  · rw [if_neg hk]
    exact ⟨st1, h, hsome⟩

/-- Tracked markets survive any sequence of evaluations. -/
theorem processAll_isSome (steps : List (PolymarketSubscription × MarketSnapshot × ℕ)) :
    ∀ (states : String → Option ConvictionState) (mid : String),
      (states mid).isSome = true → ((processAll states steps) mid).isSome = true := by
  induction steps with
  | nil => exact fun states mid h => h
  | cons s rest ih =>
      intro states mid h
      exact ih (processSubscription states s.1 s.2.1 s.2.2) mid
        (processSub_isSome states s.1 s.2.1 s.2.2 mid h)

/-- A recorded last_yes_price survives any sequence of evaluations. -/
theorem processAll_tracked (steps : List (PolymarketSubscription × MarketSnapshot × ℕ)) :
    ∀ (states : String → Option ConvictionState) (mid : String)
      (st1 : ConvictionState), states mid = some st1 →
      st1.last_yes_price.isSome = true →
      ∃ st2, processAll states steps mid = some st2 ∧
        st2.last_yes_price.isSome = true := by
  induction steps with
  | nil => exact fun states mid st1 h hsome => ⟨st1, h, hsome⟩
  | cons s rest ih =>
      intro states mid st1 h hsome
      obtain ⟨st2, h2, hsome2⟩ :=
        processSub_tracked states s.1 s.2.1 s.2.2 mid st1 h hsome
      exact ih (processSubscription states s.1 s.2.1 s.2.2) mid st2 h2 hsome2

/-- C10: after an evaluation of a market its state holds a non-None
last_yes_price; no later engine evaluation or orchestrator step resets
it to None or removes the entry, so the set of tracked markets grows
monotonically. -/
theorem c10_tracked_monotone :
    (∀ (sub : PolymarketSubscription) (snap : MarketSnapshot)
        (st : ConvictionState) (now : ℕ),
        ((detectConvictionChange sub snap st now).2.last_yes_price).isSome = true)
  ∧ (∀ (states : String → Option ConvictionState) sub snap now,
        ∃ st1, processSubscription states sub snap now sub.market_id = some st1 ∧
          st1.last_yes_price.isSome = true)
  ∧ (∀ (states : String → Option ConvictionState) sub snap now mid,
        (states mid).isSome = true →
        (processSubscription states sub snap now mid).isSome = true)
  ∧ (∀ (states : String → Option ConvictionState) sub snap now mid st1,
        states mid = some st1 → st1.last_yes_price.isSome = true →
        ∃ st2, processSubscription states sub snap now mid = some st2 ∧
          st2.last_yes_price.isSome = true)
  ∧ (∀ (steps : List (PolymarketSubscription × MarketSnapshot × ℕ)) states mid,
        (states mid).isSome = true →
        ((processAll states steps) mid).isSome = true)
  ∧ (∀ (steps : List (PolymarketSubscription × MarketSnapshot × ℕ)) states mid st1,
        states mid = some st1 → st1.last_yes_price.isSome = true →
        ∃ st2, processAll states steps mid = some st2 ∧
          st2.last_yes_price.isSome = true) := by
  refine ⟨detect_last_isSome, ?_, ?_, ?_, ?_, ?_⟩
  · intro states sub snap now
    refine ⟨(detectConvictionChange sub snap ((states sub.market_id).getD {}) now).2,
      ?_, detect_last_isSome _ _ _ _⟩
    simp only [processSubscription]
    simp
  · exact fun states sub snap now mid h => processSub_isSome states sub snap now mid h
  · exact fun states sub snap now mid st1 h hsome =>
      processSub_tracked states sub snap now mid st1 h hsome
  · exact fun steps states mid h => processAll_isSome steps states mid h
  · exact fun steps states mid st1 h hsome => processAll_tracked steps states mid st1 h hsome

/-- C10 witness: a tracked market with a recorded price survives a
further evaluation step with its price still recorded. -/
theorem c10_witness :
    ∃ st2, processAll statesW [(subDefault, snapAt (3/5), 1)] "m1" = some st2 ∧
      st2.last_yes_price.isSome = true :=
  c10_tracked_monotone.2.2.2.2.2 [(subDefault, snapAt (3/5), 1)] statesW "m1"
    { last_yes_price := some (9/20) } rfl rfl

end Polymarket
